import Mathlib

/-!
# Verification of the Editorial Teardown Pipeline

A shallow embedding, in Lean 4, of the algorithmic core of the LinkedIn
teardown pipeline: the narrative-diagnosis quality gate
(`narrative_diagnosis.py`), the playbook generator (`playbook_generator.py`),
the OCR text grouper and matcher (`text_matcher.py`), the evidence selector
(`evidence_selector.py`), the content isolator's crop policy
(`content_isolator.py`) and the hand-drawn annotation renderer
(`hand_drawn_renderer.py`).

Python strings are modelled as `List Char` (`PyStr`) so that all operations
are structurally recursive and evaluate inside the kernel.  Model calls to
the OpenAI API are replaced by explicit parameters (a generator function, a
parsed-or-failed response value): each theorem quantifies over every possible
model response, which is exactly the contract the original code must uphold.
-/

/-! ## Python string primitives

`PyStr` models a Python `str`.  The helpers below mirror the Python string
operations used by the pipeline: `in` (substring test), `str.lower()`,
`str.startswith`, `str.split()` (on whitespace runs), `str.strip()` and
`sep.join(...)`. -/
abbrev PyStr := List Char

/-- The apostrophe character (codepoint 39), used inside several source
string literals. -/
def apos : Char := Char.ofNat 39

/-- `isSubAt needle hay`: does `needle` occur at the start of `hay`?
Helper for the Python `in` operator. -/
def isSubAt : PyStr → PyStr → Bool
  | [], _ => true
  | _ :: _, [] => false
  | a :: as, b :: bs => a == b && isSubAt as bs

/-- Python `needle in hay` (substring containment). -/
def containsSub (hay needle : PyStr) : Bool :=
  if isSubAt needle hay then true
  else
    match hay with
    | [] => false
    | _ :: t => containsSub t needle

/-- Python `s.lower()`. -/
def pyLower (s : PyStr) : PyStr := s.map Char.toLower

/-- Python `s.startswith(pre)`. -/
def pyStartsWith (s pre : PyStr) : Bool := isSubAt pre s

/-- Python `s.split()`: whitespace-separated words, empty runs dropped.
`acc` is the (reversed) word currently being read. -/
def pyWordsAux : PyStr → PyStr → List PyStr
  | [], [] => []
  | [], w => [w.reverse]
  | c :: cs, w =>
    if c.isWhitespace then
      (if w = [] then pyWordsAux cs [] else w.reverse :: pyWordsAux cs [])
    else pyWordsAux cs (c :: w)

/-- Python `len(s.split())`, the word count used by the quality gate. -/
def pyWordCount (s : PyStr) : Nat := (pyWordsAux s []).length

/-- Python `s.strip()`. -/
def pyStrip (s : PyStr) : PyStr :=
  ((s.dropWhile Char.isWhitespace).reverse.dropWhile Char.isWhitespace).reverse

/-- Python `sep.join(parts)`. -/
def pyJoin (sep : PyStr) : List PyStr → PyStr
  | [] => []
  | [x] => x
  | x :: y :: ys => x ++ sep ++ pyJoin sep (y :: ys)

/-! ## Narrative Diagnosis Engine (`narrative_diagnosis.py`)

The engine's two model calls (`_extract_text_from_image` and
`_generate_verdict`) are modelled as parameters: the OCR transcript is an
arbitrary `PyStr`, and the verdict generator is an arbitrary function
`gen : Nat → Verdict` giving the verdict produced on each attempt.  The
verdict carries the five fields requested from (and defaulted by)
`_generate_verdict`. -/

/-- `BANNED_PHRASES` from `narrative_diagnosis.py` (lines 26-46). -/
def BANNED_PHRASES : List PyStr :=
  ["no change needed".data, "looks good".data, "well done".data,
   "great job".data, "add a hook".data, "improve engagement".data,
   "consider adding".data, "you might want to".data, "try adding".data,
   "boost your".data, "optimize your".data, "enhance your".data,
   "level up".data, "take it to the next level".data, "pro tip".data,
   "best practice".data, "industry standard".data, "thought leader".data,
   "value proposition".data]

/-- `weak_starts` from `_check_verdict_quality` (line 120). -/
def WEAK_STARTS : List PyStr :=
  ["this could".data, "maybe".data, "perhaps".data, "it seems".data,
   "it appears".data, "potentially".data]

/-- `generic_gaps` from `_check_verdict_quality` (line 128). -/
def GENERIC_GAPS : List PyStr :=
  ["needs improvement".data, "could be better".data, "lacks clarity".data,
   "not optimized".data]

/-- The required cost words from `_check_verdict_quality` (line 135).
`won't` and `don't` contain an apostrophe (codepoint 39). -/
def COST_WORDS : List PyStr :=
  ["miss".data, "lose".data, "skip".data, "ignore".data, "scroll".data,
   "forget".data, "overlook".data, "pass".data,
   "won".data ++ [apos] ++ "t".data, "don".data ++ [apos] ++ "t".data]

/-- The five verdict fields produced by `_generate_verdict` (both the JSON
template of the prompt and the parse-failure default dict carry exactly
these keys, in this order). -/
structure Verdict where
  primary_story : PyStr
  actual_signal : PyStr
  core_gap : PyStr
  consequence : PyStr
  one_sentence_verdict : PyStr
deriving DecidableEq

/-- `verdict.values()` in dict insertion order. -/
def verdictValues (v : Verdict) : List PyStr :=
  [v.primary_story, v.actual_signal, v.core_gap, v.consequence,
   v.one_sentence_verdict]

/-- `" ".join(str(v).lower() for v in verdict.values())` (line 108). -/
def verdictAllText (v : Verdict) : PyStr :=
  pyJoin " ".data ((verdictValues v).map pyLower)

/-- Render a natural number in decimal, for the f-string
`"Verdict too long ({word_count} words, max 25)"`. -/
def natStr (n : Nat) : PyStr := (toString n).data

/-- `NarrativeDiagnosis._check_verdict_quality` (lines 99-138): the list of
quality issues, empty iff the verdict passes the gate.  The five checks
append their issues in source order. -/
def checkVerdictQuality (v : Verdict) : List PyStr :=
  let allText := verdictAllText v
  let bannedIssues :=
    (BANNED_PHRASES.filter (fun p => containsSub allText p)).map
      (fun p => "Contains banned phrase: ".data ++ [apos] ++ p ++ [apos])
  let verdictText := v.one_sentence_verdict
  let wordCount := pyWordCount verdictText
  let lengthIssues :=
    if 25 < wordCount then
      ["Verdict too long (".data ++ natStr wordCount ++ " words, max 25)".data]
    else []
  let verdictLower := pyLower verdictText
  let weakIssues :=
    (WEAK_STARTS.filter (fun w => pyStartsWith verdictLower w)).map
      (fun w => "Verdict starts weak: ".data ++ [apos] ++ w ++ [apos])
  let coreGap := pyLower v.core_gap
  let genericIssues :=
    (GENERIC_GAPS.filter (fun g => containsSub coreGap g)).map
      (fun g => "Core gap is generic: ".data ++ [apos] ++ g ++ [apos])
  let consequence := pyLower v.consequence
  let consequenceIssues :=
    if COST_WORDS.any (fun w => containsSub consequence w) then []
    else ["Consequence doesn".data ++ [apos] ++
          "t mention a real cost/loss".data]
  bannedIssues ++ lengthIssues ++ weakIssues ++ genericIssues ++
    consequenceIssues

/-- `NarrativeDiagnosis.MAX_RETRIES` (line 52). -/
def MAX_RETRIES : Nat := 3

/-- The dict returned by `NarrativeDiagnosis.diagnose`: the verdict fields
plus `ocr_text` and `passed_quality_gate`, which are always set, and
`quality_issues`, which is set only on the gate-failure return path
(modelled as an `Option`). -/
structure DiagnoseResult where
  verdict : Verdict
  ocr_text : PyStr
  passed_quality_gate : Bool
  quality_issues : Option (List PyStr)
deriving DecidableEq

/-- The retry loop of `diagnose` (lines 161-181).  `attempt` is the Python
loop index; `rest` is the number of loop iterations that would remain after
this one (`MAX_RETRIES - 1 - attempt`), so `rest = 0` is the final
iteration, after which the last verdict is returned flagged.  The second
component counts how many times the verdict generator was invoked. -/
def diagnoseFrom (gen : Nat → Verdict) (ocr : PyStr) :
    Nat → Nat → DiagnoseResult × Nat
  | attempt, rest =>
    let v := gen attempt
    let issues := checkVerdictQuality v
    if issues.isEmpty then
      (⟨v, ocr, true, none⟩, attempt + 1)
    else
      match rest with
      | 0 => (⟨v, ocr, false, some issues⟩, attempt + 1)
      | r + 1 => diagnoseFrom gen ocr (attempt + 1) r

/-- `NarrativeDiagnosis.diagnose` (lines 140-181), with the OCR transcript
and the per-attempt verdict generator abstracted.  Returns the result dict
together with the number of generation attempts made.  The function is
total: gate failure never raises. -/
def diagnose (gen : Nat → Verdict) (ocr : PyStr) : DiagnoseResult × Nat :=
  diagnoseFrom gen ocr 0 (MAX_RETRIES - 1)

/-- A concrete always-failing verdict generator: every attempt produces a
verdict whose text contains the banned phrase `looks good`. -/
def genAlwaysBanned : Nat → Verdict :=
  fun _ => ⟨"s".data, "a".data, "g".data, "c".data, "x looks good".data⟩

/-- A concrete generator whose first verdict passes every gate check. -/
def genPassing : Nat → Verdict :=
  fun _ => ⟨"story".data, "signal".data, "the gap".data,
            "they lose readers".data, "flat and forgettable".data⟩

/-! ## Playbook Generator (`playbook_generator.py`)

The single model call of `PlaybookGenerator.generate` is modelled as a
`PBResponse` parameter: either some parsed JSON object (any field values),
or `unparseable`, covering both the direct `json.loads` failure and the
failure of the regex-extraction retry (lines 168-190). -/

/-- Opening brace character (codepoint 123). -/
def lbrace : Char := Char.ofNat 123

/-- Closing brace character (codepoint 125). -/
def rbrace : Char := Char.ofNat 125

/-- Double-quote character. -/
def dquote : Char := Char.ofNat 34

/-- `BANNED_PHRASES` from `playbook_generator.py` (lines 23-38); note it
differs from the diagnosis engine's list. -/
def PB_BANNED_PHRASES : List PyStr :=
  ["consider adding".data, "you might want to".data, "try adding".data,
   "add a hook".data, "improve engagement".data, "boost your".data,
   "optimize your".data, "level up".data, "best practice".data,
   "industry standard".data, "thought leader".data,
   "value proposition".data, "personal brand".data, "target audience".data]

/-- One before/after rewrite pair of the playbook. -/
structure RewritePair where
  before : PyStr
  after : PyStr
deriving DecidableEq

/-- The `before_after` section: a headline pair and a paragraph pair. -/
structure BeforeAfter where
  headline : RewritePair
  paragraph : RewritePair
deriving DecidableEq

/-- The playbook dict produced by `PlaybookGenerator.generate`.
`quality_warnings` and `parse_error` model the keys that are only present
on some return paths. -/
structure Playbook where
  editorial_verdict : PyStr
  why_it_fails : List PyStr
  the_fix : PyStr
  before_after : BeforeAfter
  reusable_principle : PyStr
  quality_warnings : Option (List PyStr)
  parse_error : Bool
deriving DecidableEq

/-- The content fields of a successfully parsed model response (the JSON
template requested by the prompt).  A missing `editorial_verdict` is
modelled as the empty string, matching the falsy check in the source. -/
structure RawPlaybook where
  editorial_verdict : PyStr
  why_it_fails : List PyStr
  the_fix : PyStr
  before_after : BeforeAfter
  reusable_principle : PyStr
deriving DecidableEq

/-- Outcome of the generation call plus JSON parsing: a parsed object, or
total parse failure (both `json.loads` and the regex extraction failed). -/
inductive PBResponse where
  | parsed (raw : RawPlaybook)
  | unparseable
deriving DecidableEq

/-- JSON rendering of a string: `"..."` (escaping not modelled; used only
for the banned-phrase scan over the serialized playbook). -/
def jsonStr (s : PyStr) : PyStr := dquote :: (s ++ [dquote])

/-- JSON rendering of a string list. -/
def jsonList (l : List PyStr) : PyStr :=
  '[' :: (pyJoin ", ".data (l.map jsonStr) ++ [']'])

/-- JSON rendering of a rewrite pair. -/
def jsonPair (p : RewritePair) : PyStr :=
  lbrace :: (jsonStr "before".data ++ ": ".data ++ jsonStr p.before ++
    ", ".data ++ jsonStr "after".data ++ ": ".data ++ jsonStr p.after ++
    [rbrace])

/-- `json.dumps(playbook)` (line 196), modelled for the banned-phrase scan:
all textual content of the playbook in serialization order. -/
def pbDumps (pb : Playbook) : PyStr :=
  lbrace :: (jsonStr "editorial_verdict".data ++ ": ".data ++
    jsonStr pb.editorial_verdict ++ ", ".data ++
    jsonStr "why_it_fails".data ++ ": ".data ++
    jsonList pb.why_it_fails ++ ", ".data ++
    jsonStr "the_fix".data ++ ": ".data ++ jsonStr pb.the_fix ++
    ", ".data ++
    jsonStr "before_after".data ++ ": ".data ++
    (lbrace :: (jsonStr "headline".data ++ ": ".data ++
      jsonPair pb.before_after.headline ++ ", ".data ++
      jsonStr "paragraph".data ++ ": ".data ++
      jsonPair pb.before_after.paragraph ++ [rbrace])) ++ ", ".data ++
    jsonStr "reusable_principle".data ++ ": ".data ++
    jsonStr pb.reusable_principle ++ [rbrace])

/-- `PlaybookGenerator._validate_playbook` (lines 192-213): scan the
serialized playbook for banned phrases (attaching non-blocking
`quality_warnings`), then truncate `why_it_fails` to 3 entries if longer,
or pad it with `"See above for details"` if shorter. -/
def validatePlaybook (pb : Playbook) : Playbook :=
  let allText := pyLower (pbDumps pb)
  let found := PB_BANNED_PHRASES.filter (fun p => containsSub allText p)
  let warnings := found.map (fun p => "Contains banned phrase: ".data ++ p)
  let pb1 :=
    if found = [] then pb else { pb with quality_warnings := some warnings }
  let fails := pb1.why_it_fails
  let padding := List.replicate (3 - fails.length) "See above for details".data
  if 3 < fails.length then { pb1 with why_it_fails := fails.take 3 }
  else { pb1 with why_it_fails := fails ++ padding }

/-- `PlaybookGenerator.generate` (lines 49-190) with the model response
abstracted.  `osv` is `verdict.get("one_sentence_verdict", "")`.  On a
parsed response an empty `editorial_verdict` is replaced by `osv` and the
playbook is validated; on total parse failure the minimal degenerate
playbook is returned (lines 180-190) without passing through validation. -/
def pbGenerate (osv : PyStr) (resp : PBResponse) : Playbook :=
  match resp with
  | .parsed raw =>
    let ev := if raw.editorial_verdict = [] then osv
              else raw.editorial_verdict
    validatePlaybook
      ⟨ev, raw.why_it_fails, raw.the_fix, raw.before_after,
       raw.reusable_principle, none, false⟩
  | .unparseable =>
    ⟨osv, ["Unable to generate detailed analysis".data],
     "Regenerate playbook".data, ⟨⟨[], []⟩, ⟨[], []⟩⟩,
     "Unable to generate".data, none, true⟩

/-! ## OCR elements and the text grouper (`text_matcher.py`)

`TextMatcher._group_ocr_elements` (lines 114-172): filter out likely UI
chrome, sort by `(y1, x1)`, then sweep, merging consecutive elements whose
`y1` lies within 15px of the current group's starting `y1`. -/

/-- One OCR element (`ocr_extractor.py` output): a text span with its
pixel bounding box.  Coordinates are integers; `confidence` plays no role
in grouping or matching and is omitted. -/
structure OCRElem where
  text : PyStr
  x1 : Int
  y1 : Int
  x2 : Int
  y2 : Int
deriving DecidableEq

/-- The chrome filter (lines 124-129): keep elements below the 60px nav
band that are wider than 20px and taller than 8px. -/
def chromeKeep (e : OCRElem) : Bool :=
  60 < e.y1 && 20 < e.x2 - e.x1 && 8 < e.y2 - e.y1

/-- The sort key comparison `(e.y1, e.x1)` (lexicographic, line 135). -/
def leKey (a b : OCRElem) : Bool :=
  a.y1 < b.y1 || (a.y1 == b.y1 && a.x1 ≤ b.x1)

/-- Stable insertion used to model Python's stable `sorted`. -/
def insertSorted (le : OCRElem → OCRElem → Bool) (x : OCRElem) :
    List OCRElem → List OCRElem
  | [] => [x]
  | y :: ys => if le x y then x :: y :: ys else y :: insertSorted le x ys

/-- `sorted(filtered, key=lambda e: (e.y1, e.x1))`: a stable sort by the
given (total, transitive) comparison; Python's Timsort is modelled by a
stable insertion sort, which computes the same list. -/
def pySorted (le : OCRElem → OCRElem → Bool) (l : List OCRElem) :
    List OCRElem :=
  l.foldr (insertSorted le) []

/-- A phrase-level group with its unioned bounding box. -/
structure TextGroup where
  text : PyStr
  x1 : Int
  y1 : Int
  x2 : Int
  y2 : Int
deriving DecidableEq

/-- Starting a new group from one element (lines 144-150 / 160-166). -/
def initGroup (e : OCRElem) : TextGroup := ⟨e.text, e.x1, e.y1, e.x2, e.y2⟩

/-- Extending the current group with an element on the same line
(lines 152-155): append text, extend `x2`/`y2`; `x1`/`y1` unchanged. -/
def mergeElem (g : TextGroup) (e : OCRElem) : TextGroup :=
  ⟨g.text ++ " ".data ++ e.text, g.x1, g.y1, max g.x2 e.x2, max g.y2 e.y2⟩

/-- Emit the current group if its stripped text is non-empty
(lines 158-159, 169-170). -/
def emitGroup (g : TextGroup) : List TextGroup :=
  if pyStrip g.text ≠ [] then [g] else []

/-- The grouping sweep (lines 137-170) over the sorted elements, carrying
the optional current group.  An element within 15px (strict) of the current
group's starting `y1` is merged; otherwise the current group is emitted and
a new one started. -/
def groupLoop : List OCRElem → Option TextGroup → List TextGroup
  | [], none => []
  | [], some g => emitGroup g
  | e :: rest, none => groupLoop rest (some (initGroup e))
  | e :: rest, some g =>
    if (e.y1 - g.y1).natAbs < 15 then groupLoop rest (some (mergeElem g e))
    else emitGroup g ++ groupLoop rest (some (initGroup e))

/-- The chrome filter with its fallback (lines 124-132): if everything was
filtered out, fall back to the raw element list. -/
def groupFiltered (l : List OCRElem) : List OCRElem :=
  let f := l.filter chromeKeep
  if f = [] then l else f

/-- `TextMatcher._group_ocr_elements` (lines 114-172). -/
def groupOcrElements (l : List OCRElem) : List TextGroup :=
  if l = [] then []
  else groupLoop (pySorted leKey (groupFiltered l)) none

/-- The bounding box a run of elements accumulates: the first element
starts the group and the rest are merged in order. -/
def boxOfRun (h : OCRElem) (tl : List OCRElem) : TextGroup :=
  tl.foldl mergeElem (initGroup h)

/-- The grouping sweep instrumented to return each group's member run
(starting element and merged elements, in order) instead of only the
accumulated box. -/
def groupRuns :
    List OCRElem → Option (OCRElem × List OCRElem) →
      List (OCRElem × List OCRElem)
  | [], none => []
  | [], some (h, tl) =>
    if pyStrip (boxOfRun h tl).text ≠ [] then [(h, tl)] else []
  | e :: rest, none => groupRuns rest (some (e, []))
  | e :: rest, some (h, tl) =>
    if (e.y1 - h.y1).natAbs < 15 then groupRuns rest (some (h, tl ++ [e]))
    else
      (if pyStrip (boxOfRun h tl).text ≠ [] then [(h, tl)] else []) ++
        groupRuns rest (some (e, []))

/-- The member runs of `_group_ocr_elements`. -/
def groupMembers (l : List OCRElem) : List (OCRElem × List OCRElem) :=
  if l = [] then []
  else groupRuns (pySorted leKey (groupFiltered l)) none

/-! ## TextMatcher.match and the Evidence Selector -/

/-- A selected match (`text_matcher.py` lines 90-97 and 105-112): a group's
text and box plus the provenance string. -/
structure MatchItem where
  text : PyStr
  x1 : Int
  y1 : Int
  x2 : Int
  y2 : Int
  matched_source : PyStr
deriving DecidableEq

/-- Outcome of the selection model call: a parsed `{"selected": [...]}` id
list, or failure (API error or unparseable JSON — any exception caught at
line 101). -/
inductive SelectOutcome where
  | ok (ids : List Int)
  | fail
deriving DecidableEq

/-- Decimal rendering of an integer, for `f"Element {idx}"`. -/
def intStr (i : Int) : PyStr := (toString i).data

/-- A match built from a selected group (lines 90-97). -/
def toSelMatch (idx : Int) (g : TextGroup) : MatchItem :=
  ⟨g.text, g.x1, g.y1, g.x2, g.y2, "Element ".data ++ intStr idx⟩

/-- A match built by the fallback path (lines 105-112). -/
def toFallbackMatch (g : TextGroup) : MatchItem :=
  ⟨g.text, g.x1, g.y1, g.x2, g.y2, "Fallback".data⟩

/-- `TextMatcher.match` (lines 24-112) with the selection call abstracted:
empty input returns `[]`; on a parsed response the first `max_results`
selected ids that are in range `1..len(grouped)` index into the groups; on
any failure the fallback returns the groups wider than 50px, in document
order, limited to `max_results`.  The function is total: failure of the
selection call never raises. -/
def matcherMatch (maxResults : Nat) (ocr : List OCRElem)
    (outcome : SelectOutcome) : List MatchItem :=
  if ocr = [] then []
  else
    let grouped := groupOcrElements ocr
    match outcome with
    | .ok ids =>
      (ids.take maxResults).filterMap (fun idx =>
        if 1 ≤ idx ∧ idx ≤ (grouped.length : Int) then
          (grouped.get? (idx - 1).toNat).map (toSelMatch idx)
        else none)
    | .fail =>
      ((grouped.filter (fun g => 50 < g.x2 - g.x1)).take maxResults).map
        toFallbackMatch

/-- `EvidenceSelector.MAX_EVIDENCE` (`evidence_selector.py` line 18). -/
def MAX_EVIDENCE : Nat := 3

/-- A bounding box as stored in an evidence item. -/
structure BoundingBox where
  x1 : Int
  y1 : Int
  x2 : Int
  y2 : Int
deriving DecidableEq

/-- One evidence item (`evidence_selector.py` lines 43-48). -/
structure EvidenceItem where
  id : Nat
  why_it_matters : PyStr
  editorial_caption : PyStr
  bounding_box : BoundingBox
deriving DecidableEq

/-- The dict returned by `select_evidence` (lines 50-54). -/
structure EvidenceResult where
  evidence : List EvidenceItem
  evidence_strength : PyStr
  verdict_supported : Bool
deriving DecidableEq

/-- `EvidenceSelector.select_evidence` (lines 21-54), with the OCR element
list and the selection outcome abstracted.  `osv` models
`verdict.get("one_sentence_verdict", "")`. -/
def selectEvidence (osv : PyStr) (ocr : List OCRElem)
    (outcome : SelectOutcome) : EvidenceResult :=
  let ms := matcherMatch MAX_EVIDENCE ocr outcome
  let caption := if 35 < osv.length then osv.take 35 ++ "...".data else osv
  let items := (List.enumFrom 1 ms).map (fun im =>
    (⟨im.1, "Matches: ".data ++ im.2.matched_source.take 50,
      if caption = [] then "Issue here".data else caption,
      ⟨im.2.x1, im.2.y1, im.2.x2, im.2.y2⟩⟩ : EvidenceItem))
  ⟨items, if items = [] then "weak".data else "strong".data,
   !items.isEmpty⟩

/-- C9 counterexample fixture: two filter-surviving elements on lines 10px
apart; the second starts further left than the first. -/
def e1C9 : OCRElem := ⟨"A".data, 50, 100, 80, 110⟩

/-- Second C9 fixture element (smaller `x1`, merged into the first's
group). -/
def e2C9 : OCRElem := ⟨"B".data, 10, 110, 40, 120⟩

/-- The C9 counterexample OCR list. -/
def exC9 : List OCRElem := [e1C9, e2C9]

/-- C8 witness fixture: a single filter-surviving element. -/
def exC8good : List OCRElem := [⟨"Hello".data, 10, 100, 70, 115⟩]

/-- C8 counterexample fixture: a single element rejected by the chrome
filter (so the raw-element fallback engages) with a degenerate box. -/
def exC8bad : List OCRElem := [⟨"hi".data, 0, 0, 0, 0⟩]

/-! ## Content Isolator crop policy (`content_isolator.py`)

`isolate_content` (lines 146-197) computes a conservative crop rectangle
from the image size and content type alone.  Python's `int(width * 0.03)`
(and the 0.05 / 0.02 variants) computes, with IEEE doubles, exactly
`⌊3·width/100⌋` (resp. `⌊5·width/100⌋`, `⌊2·width/100⌋`) for every width
in the representable image-size range (the multiplier's relative rounding
error, below 2⁻⁵², can never move the product across an integer boundary
for widths far below 2⁵⁰); the margins are therefore modelled with exact
natural division. -/

/-- The crop rectangle `(x1, y1, x2, y2)` of `isolate_content`
(lines 169-186): a pure function of width, height and content type. -/
def isolateCropRect (W H : Nat) (contentType : PyStr) :
    Nat × Nat × Nat × Nat :=
  if contentType = "post".data then
    let leftMargin := min 50 (3 * W / 100)
    let rightMargin := min 100 (5 * W / 100)
    (leftMargin, 0, W - rightMargin, H)
  else
    let leftMargin := min 30 (2 * W / 100)
    let rightMargin := min 30 (2 * W / 100)
    (leftMargin, 0, W - rightMargin, H)

/-! ## Hand-Drawn Renderer (`hand_drawn_renderer.py`)

`HandDrawnRenderer.render` (lines 103-137) iterates the evidence items,
skipping any whose bounding box is malformed, and for each remaining item
draws — on a fully transparent RGBA overlay — four wobbly rectangle
passes, a wavy underline, a margin note, and a scribble arrow with an
arrowhead; it then alpha-composites the overlay onto the image and
flattens onto an opaque white canvas using the result's alpha as mask.

The drawing is modelled as the list of draw operations; the jittered
rasterization is modelled at one concrete sample of the `randint(-3, 3)`
draws (all zero, a legal sample), with per-op coverage sets that are safe
approximations of PIL's rasterizer: rectangle outlines, underlines and
arrowheads cover at most a small neighbourhood of their base geometry,
the margin note covers at most the half-plane right of and below its
anchor (PIL anchors text at the top-left), and the arrow polyline covers
at least its first vertex (`t = 0` gives `int(start + 0·Δ + 0)` exactly,
no float rounding). -/

/-- A renderer bounding box, from `item["bounding_box"]` with the source's
`.get(…, 0)` defaults applied. -/
structure RBox where
  x1 : Int
  y1 : Int
  x2 : Int
  y2 : Int
deriving DecidableEq

/-- One evidence item as consumed by the renderer. -/
structure RenderItem where
  editorial_caption : PyStr
  bounding_box : RBox
deriving DecidableEq

/-- The draw operations issued per item (lines 116-128), in source
order. -/
inductive DrawOp where
  | rectPass (r : RBox)
  | underline (r : RBox)
  | note (nx ny : Int) (text : PyStr)
  | arrowLine (sx sy ex ey : Int)
  | arrowHead (sx sy ex ey : Int)
deriving DecidableEq

/-- The operations drawn for one well-formed item: 4 wobbly rectangle
passes (line 56: `for _ in range(4)`), the underline, the margin note at
`(min(W - 150, x2 + 20), max(10, y1 - 10))` (lines 123-124), and the
arrow from `(note_x - 10, note_y + 8)` to `(x2, y1)` (line 128). -/
def itemOps (W : Int) (it : RenderItem) : List DrawOp :=
  let b := it.bounding_box
  let noteX := min (W - 150) (b.x2 + 20)
  let noteY := max 10 (b.y1 - 10)
  [.rectPass b, .rectPass b, .rectPass b, .rectPass b,
   .underline b,
   .note noteX noteY it.editorial_caption,
   .arrowLine (noteX - 10) (noteY + 8) b.x2 b.y1,
   .arrowHead (noteX - 10) (noteY + 8) b.x2 b.y1]

/-- The malformed-box guard (line 112): `x2 <= x1 or y2 <= y1` skips the
item. -/
def wellFormedItem (it : RenderItem) : Bool :=
  !(it.bounding_box.x2 ≤ it.bounding_box.x1 ||
    it.bounding_box.y2 ≤ it.bounding_box.y1)

/-- The full operation list of `render` over the evidence loop
(lines 108-128): malformed items contribute nothing. -/
def renderOps (W : Int) (evidence : List RenderItem) : List DrawOp :=
  evidence.flatMap (fun it =>
    if it.bounding_box.x2 ≤ it.bounding_box.x1 ∨
       it.bounding_box.y2 ≤ it.bounding_box.y1 then []
    else itemOps W it)

/-- An RGBA pixel. -/
structure Pixel where
  r : Nat
  g : Nat
  b : Nat
  a : Nat
deriving DecidableEq

/-- `HandDrawnRenderer.RED` (line 28). -/
def RED : Nat × Nat × Nat := (196, 30, 58)

/-- `HandDrawnRenderer.BLACK` (line 29). -/
def BLACK : Nat × Nat × Nat := (26, 26, 26)

/-- The fill colour of each op: notes are black, all strokes red. -/
def opColor : DrawOp → Nat × Nat × Nat
  | .note _ _ _ => BLACK
  | _ => RED

/-- Coverage of each op at the all-zero jitter sample (see the section
comment): safe approximations for everything except the arrow polyline,
which is modelled by its first vertex only — a pixel PIL's `draw.line`
certainly colours. -/
def opCoverZ : DrawOp → Int × Int → Bool
  | .rectPass r, p =>
    (r.x1 ≤ p.1 && p.1 ≤ r.x2 && r.y1 ≤ p.2 && p.2 ≤ r.y2) &&
    (p.1 ≤ r.x1 + 1 || r.x2 - 1 ≤ p.1 || p.2 ≤ r.y1 + 1 || r.y2 - 1 ≤ p.2)
  | .underline r, p =>
    r.x1 ≤ p.1 && p.1 ≤ r.x2 && r.y2 + 1 ≤ p.2 && p.2 ≤ r.y2 + 7
  | .note nx ny _, p => nx ≤ p.1 && ny ≤ p.2
  | .arrowLine sx sy _ _, p => p.1 == sx && p.2 == sy
  | .arrowHead _ _ ex ey, p =>
    ex - 6 ≤ p.1 && p.1 ≤ ex + 6 && ey - 6 ≤ p.2 && p.2 ≤ ey + 6

/-- The overlay colour at a pixel: ops drawn in order, later ops
overwrite; `none` is fully transparent (the overlay starts as
`(0, 0, 0, 0)`, line 105). -/
def overlayAt (ops : List DrawOp) (p : Int × Int) :
    Option (Nat × Nat × Nat) :=
  ops.foldl (fun acc op => if opCoverZ op p then some (opColor op) else acc)
    none

/-- `Image.alpha_composite(img, overlay)` at one pixel (line 131).  Every
drawn overlay pixel is fully opaque (3-tuple fills get alpha 255) and
every undrawn one fully transparent, so compositing reduces to these two
exact cases of PIL's blending formula. -/
def alphaOverPixel (dst : Pixel) (srcColor : Option (Nat × Nat × Nat)) :
    Pixel :=
  match srcColor with
  | none => dst
  | some c => ⟨c.1, c.2.1, c.2.2, 255⟩

/-- Flattening onto the white canvas with the result's alpha as mask
(lines 132-133): `paste` blends `white·(255 - a)/255 + colour·a/255`. -/
def flattenPixel (px : Pixel) : Nat × Nat × Nat :=
  ((px.r * px.a + 255 * (255 - px.a)) / 255,
   (px.g * px.a + 255 * (255 - px.a)) / 255,
   (px.b * px.a + 255 * (255 - px.a)) / 255)

/-- The rendered output pixel: composite the overlay over the input, then
flatten to opaque RGB. -/
def renderPixel (img : Int × Int → Pixel) (ops : List DrawOp)
    (p : Int × Int) : Nat × Nat × Nat :=
  flattenPixel (alphaOverPixel (img p) (overlayAt ops p))

/-- Dilation of a bounding box by a margin, for stating which pixels lie
near an evidence box. -/
def dilatedCover (m : Int) (b : RBox) (p : Int × Int) : Bool :=
  b.x1 - m ≤ p.1 && p.1 ≤ b.x2 + m && b.y1 - m ≤ p.2 && p.2 ≤ b.y2 + m

/-- C5/C6 fixture: a narrow well-formed box near the right edge of a
1000px-wide image, whose margin note is clamped to `x = 850`. -/
def itemC5 : RenderItem := ⟨"c".data, ⟨980, 500, 990, 520⟩⟩

/-- C5 fixture: a constant opaque grey input image. -/
def imgGray : Int × Int → Pixel := fun _ => ⟨100, 100, 100, 255⟩

/-- C6 fixture: a malformed item (`x2 ≤ x1`). -/
def itemC6bad : RenderItem := ⟨"bad".data, ⟨300, 40, 200, 60⟩⟩

/-- C6 fixture: a well-formed item. -/
def itemC6good : RenderItem := ⟨"good".data, ⟨100, 100, 220, 130⟩⟩

theorem isSubAt_iff (n h : PyStr) : isSubAt n h = true ↔ n <+: h := by
  induction n generalizing h with
  | nil => simp [isSubAt]
  | cons a as ih =>
    cases h with
    | nil => simp [isSubAt]
    | cons b bs =>
      rw [List.cons_prefix_cons]
      simp only [isSubAt, Bool.and_eq_true, beq_iff_eq]
      rw [ih]

theorem containsSub_iff (h n : PyStr) : containsSub h n = true ↔ n <:+: h := by
  induction h with
  | nil =>
    rw [containsSub]
    cases n <;> simp [isSubAt]
  | cons b bs ih =>
    rw [containsSub]
    by_cases hp : isSubAt n (b :: bs) = true
    · simp only [hp, if_true, true_iff]
      exact ((isSubAt_iff _ _).mp hp).isInfix
    · simp only [hp, if_false, Bool.false_eq_true]
      rw [ih]
      constructor
      · intro hi; exact hi.trans (List.suffix_cons b bs).isInfix
      · intro hi
        rcases List.infix_cons_iff.mp hi with h1 | h2
        · exact absurd ((isSubAt_iff _ _).mpr h1) hp
        · exact h2

/-- If a phrase occurs in a part it occurs in the enclosing text. -/
theorem containsSub_of_infix {small big n : PyStr} (hin : small <:+: big)
    (h : containsSub small n = true) : containsSub big n = true :=
  (containsSub_iff _ _).mpr (((containsSub_iff _ _).mp h).trans hin)

theorem infix_pyJoin {x : PyStr} (sep : PyStr) {parts : List PyStr}
    (hx : x ∈ parts) : x <:+: pyJoin sep parts := by
  induction parts with
  | nil => cases hx
  | cons p ps ih =>
    cases ps with
    | nil =>
      rcases hx with _ | ⟨_, h⟩
      · exact List.infix_rfl
      · cases h
    | cons q qs =>
      rw [show pyJoin sep (p :: q :: qs) = p ++ sep ++ pyJoin sep (q :: qs)
            from rfl]
      rw [List.append_assoc]
      rcases hx with _ | ⟨_, hmem⟩
      · exact (List.prefix_append _ (sep ++ pyJoin sep (q :: qs))).isInfix
      · refine (ih hmem).trans (List.IsSuffix.isInfix ?_)
        exact (List.suffix_append _ _).trans (List.suffix_append _ _)

/-! ### Properties of the diagnosis retry loop -/

/-- Every return path of the retry loop: the transcript is attached, and the
result either passed the gate (with an empty issue list and no
`quality_issues` key) or failed it (with `quality_issues` holding exactly the
checker's issue list for the returned verdict). -/
theorem diagnoseFrom_cases (gen : Nat → Verdict) (ocr : PyStr) :
    ∀ rest attempt,
      ((diagnoseFrom gen ocr attempt rest).1.ocr_text = ocr) ∧
      (((diagnoseFrom gen ocr attempt rest).1.passed_quality_gate = true ∧
        checkVerdictQuality (diagnoseFrom gen ocr attempt rest).1.verdict
          = [] ∧
        (diagnoseFrom gen ocr attempt rest).1.quality_issues = none) ∨
       ((diagnoseFrom gen ocr attempt rest).1.passed_quality_gate = false ∧
        (diagnoseFrom gen ocr attempt rest).1.quality_issues =
          some (checkVerdictQuality
            (diagnoseFrom gen ocr attempt rest).1.verdict))) := by
  intro rest
  induction rest with
  | zero =>
    intro attempt
    simp only [diagnoseFrom]
    by_cases h : (checkVerdictQuality (gen attempt)).isEmpty = true
    · rw [if_pos h]
      exact ⟨rfl, Or.inl ⟨rfl, List.isEmpty_iff.mp h, rfl⟩⟩
    · rw [if_neg h]
      exact ⟨rfl, Or.inr ⟨rfl, rfl⟩⟩
  | succ r ih =>
    intro attempt
    simp only [diagnoseFrom]
    by_cases h : (checkVerdictQuality (gen attempt)).isEmpty = true
    · rw [if_pos h]
      exact ⟨rfl, Or.inl ⟨rfl, List.isEmpty_iff.mp h, rfl⟩⟩
    · rw [if_neg h]
      exact ih (attempt + 1)

/-- If every attempt in the window fails the gate, the loop consumes all its
attempts and returns the final verdict, flagged, with its issue list. -/
theorem diagnoseFrom_all_fail (gen : Nat → Verdict) (ocr : PyStr) :
    ∀ rest attempt,
      (∀ i, attempt ≤ i → i ≤ attempt + rest →
        checkVerdictQuality (gen i) ≠ []) →
      diagnoseFrom gen ocr attempt rest =
        (⟨gen (attempt + rest), ocr, false,
          some (checkVerdictQuality (gen (attempt + rest)))⟩,
         attempt + rest + 1) := by
  intro rest
  induction rest with
  | zero =>
    intro attempt h
    have hne : checkVerdictQuality (gen attempt) ≠ [] :=
      h attempt le_rfl (by omega)
    simp only [diagnoseFrom]
    rw [if_neg (by simpa [List.isEmpty_iff] using hne)]
    norm_num
  | succ r ih =>
    intro attempt h
    have hne : checkVerdictQuality (gen attempt) ≠ [] :=
      h attempt le_rfl (by omega)
    simp only [diagnoseFrom]
    rw [if_neg (by simpa [List.isEmpty_iff] using hne)]
    rw [ih (attempt + 1) (fun i h1 h2 => h i (by omega) (by omega))]
    have he : attempt + 1 + r = attempt + (r + 1) := by omega
    rw [he]

/-- A banned phrase occurring in the joined verdict text puts the
corresponding message in the checker's issue list. -/
theorem banned_issue_mem {v : Verdict} {p : PyStr}
    (hp : p ∈ BANNED_PHRASES) (hc : containsSub (verdictAllText v) p = true) :
    ("Contains banned phrase: ".data ++ [apos] ++ p ++ [apos]) ∈
      checkVerdictQuality v := by
  unfold checkVerdictQuality
  refine List.mem_append_left _ (List.mem_append_left _
    (List.mem_append_left _ (List.mem_append_left _ ?_)))
  exact List.mem_map_of_mem _ (List.mem_filter.mpr ⟨hp, hc⟩)

/-- An empty issue list means each of the five checks found nothing. -/
theorem checkVerdictQuality_nil {v : Verdict}
    (h : checkVerdictQuality v = []) :
    (∀ p ∈ BANNED_PHRASES, containsSub (verdictAllText v) p = false) ∧
    pyWordCount v.one_sentence_verdict ≤ 25 ∧
    (∀ w ∈ WEAK_STARTS,
      pyStartsWith (pyLower v.one_sentence_verdict) w = false) ∧
    (∃ w ∈ COST_WORDS, containsSub (pyLower v.consequence) w = true) := by
  simp only [checkVerdictQuality, List.append_eq_nil] at h
  obtain ⟨⟨⟨⟨hA, hB⟩, hC⟩, _hD⟩, hE⟩ := h
  refine ⟨?_, ?_, ?_, ?_⟩
  · intro p hp
    rw [List.map_eq_nil, List.filter_eq_nil] at hA
    exact Bool.not_eq_true _ ▸ Bool.of_not_eq_true (hA p hp)
  · by_cases hwc : 25 < pyWordCount v.one_sentence_verdict
    · rw [if_pos hwc] at hB; cases hB
    · omega
  · intro w hw
    rw [List.map_eq_nil, List.filter_eq_nil] at hC
    exact Bool.of_not_eq_true (hC w hw)
  · by_cases hany :
      (COST_WORDS.any fun w => containsSub (pyLower v.consequence) w) = true
    · exact List.any_eq_true.mp hany
    · rw [if_neg hany] at hE; cases hE

/-- **C1**: if every generated verdict contains the banned phrase
`looks good` (so every attempt fails the quality gate), `diagnose` invokes
the generator exactly 3 times (`MAX_RETRIES`) and then returns the third
attempt's verdict with `passed_quality_gate = false` and a `quality_issues`
list containing the message `Contains banned phrase: 'looks good'`; the
loop is a total function, so gate failure never raises. -/
theorem claim_C1_gate_failure (gen : Nat → Verdict) (ocr : PyStr)
    (h : ∀ i, i < 3 →
      containsSub (verdictAllText (gen i)) "looks good".data = true) :
    (diagnose gen ocr).2 = 3 ∧
    (diagnose gen ocr).1.verdict = gen 2 ∧
    (diagnose gen ocr).1.passed_quality_gate = false ∧
    ∃ issues, (diagnose gen ocr).1.quality_issues = some issues ∧
      ("Contains banned phrase: ".data ++ [apos] ++ "looks good".data ++
        [apos]) ∈ issues := by
  have hfail : ∀ i, 0 ≤ i → i ≤ 0 + 2 → checkVerdictQuality (gen i) ≠ [] := by
    intro i _ hi
    exact List.ne_nil_of_mem
      (banned_issue_mem (by decide) (h i (by omega)))
  have hdef : diagnose gen ocr = diagnoseFrom gen ocr 0 2 := rfl
  rw [hdef, diagnoseFrom_all_fail gen ocr 2 0 hfail]
  refine ⟨rfl, rfl, rfl, checkVerdictQuality (gen (0 + 2)), rfl, ?_⟩
  exact banned_issue_mem (by decide) (h (0 + 2) (by omega))

/-- Witness for C1 at the concrete always-banned generator. -/
theorem claim_C1_gate_failure_witness :
    (∀ i, i < 3 →
      containsSub (verdictAllText (genAlwaysBanned i))
        "looks good".data = true) ∧
    ((diagnose genAlwaysBanned "t".data).2 = 3 ∧
     (diagnose genAlwaysBanned "t".data).1.verdict = genAlwaysBanned 2 ∧
     (diagnose genAlwaysBanned "t".data).1.passed_quality_gate = false ∧
     ∃ issues,
       (diagnose genAlwaysBanned "t".data).1.quality_issues = some issues ∧
       ("Contains banned phrase: ".data ++ [apos] ++ "looks good".data ++
         [apos]) ∈ issues) :=
  ⟨by decide, claim_C1_gate_failure genAlwaysBanned "t".data (by decide)⟩

/-- **C2**: any verdict returned by `diagnose` with
`passed_quality_gate = true` satisfies the gate: no banned phrase occurs
(case-insensitively) in any of the five verdict fields, the one-sentence
verdict has at most 25 words, it does not open with a hedging phrase, and
the consequence contains at least one required cost verb.  (The gate runs
on the five generated fields, before `ocr_text` is attached.) -/
theorem claim_C2_quality_gate (gen : Nat → Verdict) (ocr : PyStr)
    (h : (diagnose gen ocr).1.passed_quality_gate = true) :
    (∀ p ∈ BANNED_PHRASES, ∀ f ∈ verdictValues (diagnose gen ocr).1.verdict,
      containsSub (pyLower f) p = false) ∧
    pyWordCount (diagnose gen ocr).1.verdict.one_sentence_verdict ≤ 25 ∧
    (∀ w ∈ WEAK_STARTS,
      pyStartsWith (pyLower (diagnose gen ocr).1.verdict.one_sentence_verdict)
        w = false) ∧
    (∃ w ∈ COST_WORDS,
      containsSub (pyLower (diagnose gen ocr).1.verdict.consequence)
        w = true) := by
  have hc := diagnoseFrom_cases gen ocr (MAX_RETRIES - 1) 0
  have hdef : diagnose gen ocr = diagnoseFrom gen ocr 0 (MAX_RETRIES - 1) :=
    rfl
  rcases hc.2 with ⟨_, hnil, _⟩ | ⟨hfailed, _⟩
  · rw [hdef]
    have hd := checkVerdictQuality_nil hnil
    refine ⟨?_, hd.2.1, hd.2.2.1, hd.2.2.2⟩
    intro p hp f hf
    by_contra hcon
    have htrue : containsSub (pyLower f) p = true := by
      cases hcs : containsSub (pyLower f) p
      · exact absurd hcs hcon
      · rfl
    have : containsSub (verdictAllText
        (diagnoseFrom gen ocr 0 (MAX_RETRIES - 1)).1.verdict) p = true :=
      containsSub_of_infix
        (infix_pyJoin " ".data (List.mem_map_of_mem pyLower hf)) htrue
    rw [hd.1 p hp] at this
    cases this
  · rw [hdef] at h
    rw [h] at hfailed
    cases hfailed

/-- Witness for C2 at a concrete generator whose verdict passes the gate. -/
theorem claim_C2_quality_gate_witness :
    (diagnose genPassing "t".data).1.passed_quality_gate = true ∧
    ((∀ p ∈ BANNED_PHRASES,
        ∀ f ∈ verdictValues (diagnose genPassing "t".data).1.verdict,
        containsSub (pyLower f) p = false) ∧
     pyWordCount
       (diagnose genPassing "t".data).1.verdict.one_sentence_verdict ≤ 25 ∧
     (∀ w ∈ WEAK_STARTS,
       pyStartsWith
         (pyLower
           (diagnose genPassing "t".data).1.verdict.one_sentence_verdict)
         w = false) ∧
     (∃ w ∈ COST_WORDS,
       containsSub
         (pyLower (diagnose genPassing "t".data).1.verdict.consequence)
         w = true)) :=
  ⟨by decide, claim_C2_quality_gate genPassing "t".data (by decide)⟩

/-- **C10**: every result of `diagnose` carries the transcript in
`ocr_text` and a `passed_quality_gate` flag, and it carries a
`quality_issues` list exactly when the gate failed: a passing verdict has
no `quality_issues` entry at all (modelled by the `Option` being `none`),
even though the spec's Verdict data model lists `quality_issues` as a
field. -/
theorem claim_C10_result_keys (gen : Nat → Verdict) (ocr : PyStr) :
    (diagnose gen ocr).1.ocr_text = ocr ∧
    ((diagnose gen ocr).1.quality_issues ≠ none ↔
      (diagnose gen ocr).1.passed_quality_gate = false) := by
  have hc := diagnoseFrom_cases gen ocr (MAX_RETRIES - 1) 0
  have hdef : diagnose gen ocr = diagnoseFrom gen ocr 0 (MAX_RETRIES - 1) :=
    rfl
  rw [hdef]
  refine ⟨hc.1, ?_⟩
  rcases hc.2 with ⟨hp, _, hq⟩ | ⟨hp, hq⟩
  · rw [hp, hq]
    simp
  · rw [hp, hq]
    simp

/-- Validation always leaves exactly 3 `why_it_fails` entries. -/
theorem validatePlaybook_length (pb : Playbook) :
    ((validatePlaybook pb).why_it_fails).length = 3 := by
  simp only [validatePlaybook]
  split <;> split <;>
    simp_all [List.length_take, List.length_append, List.length_replicate] <;>
    omega

/-- **C3 counterexample**: on the response-unparseable failure path,
`generate` returns the minimal degenerate playbook whose `why_it_fails`
has exactly 1 entry, not 3 — the degenerate playbook bypasses
`_validate_playbook`'s padding. -/
theorem claim_C3_counterexample :
    ((pbGenerate "v".data PBResponse.unparseable).why_it_fails).length = 1 ∧
    ((pbGenerate "v".data PBResponse.unparseable).why_it_fails).length ≠ 3 ∧
    (pbGenerate "v".data PBResponse.unparseable).parse_error = true := by
  refine ⟨?_, ?_, ?_⟩ <;> simp [pbGenerate]

/-- **C3 (amended)**: every playbook built from a *parsed* model response
has exactly 3 `why_it_fails` entries (truncated or padded by validation),
regardless of how many bullets the response contained; the unparseable
failure path instead returns the fixed single-entry list
`["Unable to generate detailed analysis"]`. -/
theorem claim_C3_why_it_fails_shape (osv : PyStr) (raw : RawPlaybook) :
    ((pbGenerate osv (PBResponse.parsed raw)).why_it_fails).length = 3 ∧
    (pbGenerate osv PBResponse.unparseable).why_it_fails =
      ["Unable to generate detailed analysis".data] := by
  simp only [pbGenerate]
  exact ⟨validatePlaybook_length _, trivial⟩

/-- Merging never changes a group's `x1` or `y1` or (hence) those of an
accumulated run. -/
theorem foldl_mergeElem_x1y1 (tl : List OCRElem) :
    ∀ g : TextGroup, (tl.foldl mergeElem g).x1 = g.x1 ∧
      (tl.foldl mergeElem g).y1 = g.y1 := by
  induction tl with
  | nil => intro g; exact ⟨rfl, rfl⟩
  | cons e es ih =>
    intro g
    simpa [List.foldl, mergeElem] using ih (mergeElem g e)

theorem boxOfRun_x1 (h : OCRElem) (tl : List OCRElem) :
    (boxOfRun h tl).x1 = h.x1 :=
  (foldl_mergeElem_x1y1 tl (initGroup h)).1

theorem boxOfRun_y1 (h : OCRElem) (tl : List OCRElem) :
    (boxOfRun h tl).y1 = h.y1 :=
  (foldl_mergeElem_x1y1 tl (initGroup h)).2

theorem boxOfRun_snoc (h : OCRElem) (tl : List OCRElem) (e : OCRElem) :
    boxOfRun h (tl ++ [e]) = mergeElem (boxOfRun h tl) e := by
  simp [boxOfRun, List.foldl_append]

/-- The accumulated `x2` is an upper bound of the members' `x2`, and
similarly for `y2`. -/
theorem foldl_mergeElem_ub (tl : List OCRElem) :
    ∀ g : TextGroup,
      (g.x2 ≤ (tl.foldl mergeElem g).x2 ∧ g.y2 ≤ (tl.foldl mergeElem g).y2) ∧
      ∀ e ∈ tl, e.x2 ≤ (tl.foldl mergeElem g).x2 ∧
        e.y2 ≤ (tl.foldl mergeElem g).y2 := by
  induction tl with
  | nil => intro g; exact ⟨⟨le_refl _, le_refl _⟩, by intro e he; cases he⟩
  | cons a as ih =>
    intro g
    have hub := (ih (mergeElem g a)).1
    have hx : (mergeElem g a).x2 = max g.x2 a.x2 := rfl
    have hy : (mergeElem g a).y2 = max g.y2 a.y2 := rfl
    constructor
    · constructor
      · exact le_trans (by rw [hx]; exact le_max_left _ _) hub.1
      · exact le_trans (by rw [hy]; exact le_max_left _ _) hub.2
    · intro e he
      rcases List.mem_cons.mp he with rfl | hmem
      · constructor
        · exact le_trans (by rw [hx]; exact le_max_right _ _) hub.1
        · exact le_trans (by rw [hy]; exact le_max_right _ _) hub.2
      · exact (ih (mergeElem g a)).2 e hmem

/-- The accumulated `x2` (resp. `y2`) is attained by the start or some
member. -/
theorem foldl_mergeElem_attained (tl : List OCRElem) :
    ∀ g : TextGroup,
      ((tl.foldl mergeElem g).x2 = g.x2 ∨
        (tl.foldl mergeElem g).x2 ∈ tl.map (fun e => e.x2)) ∧
      ((tl.foldl mergeElem g).y2 = g.y2 ∨
        (tl.foldl mergeElem g).y2 ∈ tl.map (fun e => e.y2)) := by
  induction tl with
  | nil => intro g; exact ⟨Or.inl rfl, Or.inl rfl⟩
  | cons a as ih =>
    intro g
    simp only [List.foldl_cons, List.map_cons, List.mem_cons]
    constructor
    · rcases (ih (mergeElem g a)).1 with hx | hx
      · have hx2 : (mergeElem g a).x2 = max g.x2 a.x2 := rfl
        rw [hx2] at hx
        rcases max_choice g.x2 a.x2 with hm | hm
        · exact Or.inl (hx.trans hm)
        · exact Or.inr (Or.inl (hx.trans hm))
      · exact Or.inr (Or.inr hx)
    · rcases (ih (mergeElem g a)).2 with hy | hy
      · have hy2 : (mergeElem g a).y2 = max g.y2 a.y2 := rfl
        rw [hy2] at hy
        rcases max_choice g.y2 a.y2 with hm | hm
        · exact Or.inl (hy.trans hm)
        · exact Or.inr (Or.inl (hy.trans hm))
      · exact Or.inr (Or.inr hy)

/-- The production sweep computes exactly the boxes of the instrumented
sweep's runs. -/
theorem groupLoop_eq_runs (l : List OCRElem) :
    ∀ og : Option (OCRElem × List OCRElem),
      groupLoop l (og.map (fun p => boxOfRun p.1 p.2)) =
        (groupRuns l og).map (fun p => boxOfRun p.1 p.2) := by
  induction l with
  | nil =>
    intro og
    match og with
    | none => rfl
    | some (h, tl) =>
      simp only [Option.map_some, groupLoop, groupRuns, emitGroup]
      by_cases hs : pyStrip (boxOfRun h tl).text ≠ []
      · rw [if_pos hs, if_pos hs]; rfl
      · rw [if_neg hs, if_neg hs]; rfl
  | cons e rest ih =>
    intro og
    match og with
    | none =>
      show groupLoop rest (some (initGroup e)) =
        (groupRuns rest (some (e, []))).map (fun p => boxOfRun p.1 p.2)
      have : initGroup e = boxOfRun e [] := rfl
      rw [this]
      exact ih (some (e, []))
    | some (h, tl) =>
      simp only [Option.map_some, groupLoop, groupRuns]
      rw [boxOfRun_y1 h tl]
      by_cases hc : (e.y1 - h.y1).natAbs < 15
      · rw [if_pos hc, if_pos hc]
        have : mergeElem (boxOfRun h tl) e = boxOfRun h (tl ++ [e]) :=
          (boxOfRun_snoc h tl e).symm
        rw [this]
        exact ih (some (h, tl ++ [e]))
      · rw [if_neg hc, if_neg hc]
        rw [List.map_append]
        congr 1
        · simp only [emitGroup]
          by_cases hs : pyStrip (boxOfRun h tl).text ≠ []
          · rw [if_pos hs, if_pos hs]; rfl
          · rw [if_neg hs, if_neg hs]; rfl
        · have : initGroup e = boxOfRun e [] := rfl
          rw [this]
          exact ih (some (e, []))

/-- `_group_ocr_elements` equals the boxes of the member runs. -/
theorem groupOcrElements_eq_members (l : List OCRElem) :
    groupOcrElements l = (groupMembers l).map (fun p => boxOfRun p.1 p.2) := by
  unfold groupOcrElements groupMembers
  by_cases hl : l = []
  · rw [if_pos hl, if_pos hl]; rfl
  · rw [if_neg hl, if_neg hl]
    exact groupLoop_eq_runs _ none

/-! ### The stable sort: permutation and sortedness -/
theorem insertSorted_perm (le : OCRElem → OCRElem → Bool) (x : OCRElem) :
    ∀ l : List OCRElem, List.Perm (insertSorted le x l) (x :: l) := by
  intro l
  induction l with
  | nil => exact List.Perm.refl _
  | cons y ys ih =>
    simp only [insertSorted]
    by_cases h : le x y = true
    · rw [if_pos h]
    · rw [if_neg h]
      exact (ih.cons y).trans (List.Perm.swap x y ys)

theorem pySorted_perm (le : OCRElem → OCRElem → Bool) (l : List OCRElem) :
    List.Perm (pySorted le l) l := by
  induction l with
  | nil => exact List.Perm.refl _
  | cons x xs ih =>
    exact (insertSorted_perm le x (pySorted le xs)).trans (ih.cons x)

theorem mem_pySorted (le : OCRElem → OCRElem → Bool) {x : OCRElem}
    {l : List OCRElem} (h : x ∈ pySorted le l) : x ∈ l :=
  (pySorted_perm le l).mem_iff.mp h

theorem insertSorted_pairwise (le : OCRElem → OCRElem → Bool)
    (hTot : ∀ a b, le a b = true ∨ le b a = true)
    (hTrans : ∀ a b c, le a b = true → le b c = true → le a c = true)
    (x : OCRElem) :
    ∀ l : List OCRElem, List.Pairwise (fun a b => le a b = true) l →
      List.Pairwise (fun a b => le a b = true) (insertSorted le x l) := by
  intro l
  induction l with
  | nil => intro _; exact List.pairwise_singleton _ _
  | cons y ys ih =>
    intro hp
    rcases List.pairwise_cons.mp hp with ⟨hy, hys⟩
    simp only [insertSorted]
    by_cases h : le x y = true
    · rw [if_pos h]
      refine List.pairwise_cons.mpr ⟨?_, hp⟩
      intro z hz
      rcases List.mem_cons.mp hz with rfl | hmem
      · exact h
      · exact hTrans x y z h (hy z hmem)
    · rw [if_neg h]
      refine List.pairwise_cons.mpr ⟨?_, ih hys⟩
      intro z hz
      have hz2 : z ∈ x :: ys := (insertSorted_perm le x ys).mem_iff.mp hz
      rcases List.mem_cons.mp hz2 with rfl | hmem
      · rcases hTot y z with hyz | hzy
        · exact hyz
        · exact absurd hzy h
      · exact hy z hmem

theorem pySorted_pairwise (le : OCRElem → OCRElem → Bool)
    (hTot : ∀ a b, le a b = true ∨ le b a = true)
    (hTrans : ∀ a b c, le a b = true → le b c = true → le a c = true)
    (l : List OCRElem) :
    List.Pairwise (fun a b => le a b = true) (pySorted le l) := by
  induction l with
  | nil => exact List.Pairwise.nil
  | cons x xs ih => exact insertSorted_pairwise le hTot hTrans x _ ih

theorem leKey_total (a b : OCRElem) : leKey a b = true ∨ leKey b a = true := by
  simp only [leKey, Bool.or_eq_true, Bool.and_eq_true, decide_eq_true_eq,
    beq_iff_eq]
  omega

theorem leKey_trans (a b c : OCRElem) (h1 : leKey a b = true)
    (h2 : leKey b c = true) : leKey a c = true := by
  simp only [leKey, Bool.or_eq_true, Bool.and_eq_true, decide_eq_true_eq,
    beq_iff_eq] at h1 h2 ⊢
  omega

/-- The sorted element list is ascending in `y1`. -/
theorem pySorted_y1_pairwise (l : List OCRElem) :
    List.Pairwise (fun a b : OCRElem => a.y1 ≤ b.y1)
      (pySorted leKey l) := by
  refine (pySorted_pairwise leKey leKey_total leKey_trans l).imp ?_
  intro a b hab
  simp only [leKey, Bool.or_eq_true, Bool.and_eq_true, decide_eq_true_eq,
    beq_iff_eq] at hab
  omega

/-- Structure of the runs produced by the sweep: over a `y1`-ascending
input whose elements all satisfy `S` (and a current run whose members
satisfy `S`, lie within 15px of its start, and precede the remaining
input), every output run's members satisfy `S`, lie within 15px of the
run's starting element, and have `y1` at least the start's `y1`. -/
theorem groupRuns_spec (S : OCRElem → Prop) :
    ∀ (l : List OCRElem) (og : Option (OCRElem × List OCRElem)),
      List.Pairwise (fun a b : OCRElem => a.y1 ≤ b.y1) l →
      (∀ x ∈ l, S x) →
      (∀ h tl, og = some (h, tl) →
        S h ∧ (∀ e ∈ tl, S e ∧ (e.y1 - h.y1).natAbs < 15 ∧ h.y1 ≤ e.y1) ∧
        (∀ x ∈ l, h.y1 ≤ x.y1)) →
      ∀ p ∈ groupRuns l og,
        S p.1 ∧
        ∀ e ∈ p.2, S e ∧ (e.y1 - p.1.y1).natAbs < 15 ∧ p.1.y1 ≤ e.y1 := by
  intro l
  induction l with
  | nil =>
    intro og _ _ hog p hp
    match og with
    | none => cases hp
    | some (h, tl) =>
      rcases hog h tl rfl with ⟨hS, htl, _⟩
      simp only [groupRuns] at hp
      by_cases hs : pyStrip (boxOfRun h tl).text ≠ []
      · rw [if_pos hs] at hp
        rcases List.mem_singleton.mp hp with rfl
        exact ⟨hS, htl⟩
      · rw [if_neg hs] at hp
        cases hp
  | cons a rest ih =>
    intro og hpw hS hog p hp
    rcases List.pairwise_cons.mp hpw with ⟨hafirst, hrest⟩
    have hSa : S a := hS a (List.mem_cons_self a rest)
    have hSrest : ∀ x ∈ rest, S x :=
      fun x hx => hS x (List.mem_cons_of_mem a hx)
    have hogNew : ∀ h tl,
        (some (a, ([] : List OCRElem)) :
          Option (OCRElem × List OCRElem)) = some (h, tl) →
        S h ∧ (∀ e ∈ tl, S e ∧ (e.y1 - h.y1).natAbs < 15 ∧ h.y1 ≤ e.y1) ∧
        (∀ x ∈ rest, h.y1 ≤ x.y1) := by
      intro h tl heq
      cases heq
      refine ⟨hSa, ?_, hafirst⟩
      intro x hx
      cases hx
    match og with
    | none =>
      simp only [groupRuns] at hp
      exact ih (some (a, [])) hrest hSrest hogNew p hp
    | some (h, tl) =>
      rcases hog h tl rfl with ⟨hSh, htl, hhle⟩
      simp only [groupRuns] at hp
      by_cases hc : (a.y1 - h.y1).natAbs < 15
      · rw [if_pos hc] at hp
        refine ih (some (h, tl ++ [a])) hrest hSrest ?_ p hp
        intro h2 tl2 heq
        cases heq
        refine ⟨hSh, ?_, ?_⟩
        · intro x hx
          rcases List.mem_append.mp hx with hmem | hxe
          · exact htl x hmem
          · rcases List.mem_singleton.mp hxe with rfl
            exact ⟨hSa, hc, hhle x (List.mem_cons_self _ _)⟩
        · intro x hx
          exact hhle x (List.mem_cons_of_mem a hx)
      · rw [if_neg hc] at hp
        rcases List.mem_append.mp hp with hemit | hrec
        · by_cases hs : pyStrip (boxOfRun h tl).text ≠ []
          · rw [if_pos hs] at hemit
            rcases List.mem_singleton.mp hemit with rfl
            exact ⟨hSh, htl⟩
          · rw [if_neg hs] at hemit
            cases hemit
        · exact ih (some (a, [])) hrest hSrest hogNew p hrec

/-- When at least one element survives the chrome filter, every group's
bounding box is non-degenerate: the starting element is wider than 20px
and taller than 8px, `x1`/`y1` are the start's, and `x2`/`y2` only grow. -/
theorem groupOcrElements_valid (l : List OCRElem)
    (hne : l.filter chromeKeep ≠ []) :
    ∀ g ∈ groupOcrElements l, g.x1 < g.x2 ∧ g.y1 < g.y2 := by
  intro g hg
  have hlne : l ≠ [] := by
    intro h
    rw [h] at hne
    exact hne rfl
  rw [groupOcrElements_eq_members] at hg
  rcases List.mem_map.mp hg with ⟨p, hp, rfl⟩
  have hgf : groupFiltered l = l.filter chromeKeep := by
    simp only [groupFiltered]
    rw [if_neg hne]
  have hp2 : p ∈ groupRuns (pySorted leKey (groupFiltered l)) none := by
    unfold groupMembers at hp
    rw [if_neg hlne] at hp
    exact hp
  have hspec := groupRuns_spec (fun e => chromeKeep e = true)
    (pySorted leKey (groupFiltered l)) none
    (pySorted_y1_pairwise _)
    (fun x hx => by
      have hmem := mem_pySorted leKey hx
      rw [hgf] at hmem
      exact (List.mem_filter.mp hmem).2)
    (by intro h tl heq; cases heq)
    p hp2
  obtain ⟨hck, _⟩ := hspec
  simp only [chromeKeep, Bool.and_eq_true, decide_eq_true_eq] at hck
  have hub := (foldl_mergeElem_ub p.2 (initGroup p.1)).1
  have hx2 : p.1.x2 ≤ (boxOfRun p.1 p.2).x2 := hub.1
  have hy2 : p.1.y2 ≤ (boxOfRun p.1 p.2).y2 := hub.2
  have hx1 : (boxOfRun p.1 p.2).x1 = p.1.x1 := boxOfRun_x1 _ _
  have hy1 : (boxOfRun p.1 p.2).y1 = p.1.y1 := boxOfRun_y1 _ _
  rw [hx1, hy1]
  omega

/-- **C4**: when the selection call fails or its response cannot be parsed,
`TextMatcher.match` returns the fallback selection: exactly the grouped
candidates whose box width `x2 - x1` exceeds 50px, in document order
(a sublist of the groups in grouping order), limited to `max_results`
items; the exception handler makes the function total, so it never
raises. -/
theorem claim_C4_matcher_fallback (maxResults : Nat) (ocr : List OCRElem) :
    matcherMatch maxResults ocr SelectOutcome.fail =
      (((groupOcrElements ocr).filter (fun g => 50 < g.x2 - g.x1)).take
        maxResults).map toFallbackMatch ∧
    (matcherMatch maxResults ocr SelectOutcome.fail).length ≤ maxResults ∧
    List.Sublist (matcherMatch maxResults ocr SelectOutcome.fail)
      ((groupOcrElements ocr).map toFallbackMatch) := by
  have heq : matcherMatch maxResults ocr SelectOutcome.fail =
      (((groupOcrElements ocr).filter (fun g => 50 < g.x2 - g.x1)).take
        maxResults).map toFallbackMatch := by
    by_cases h : ocr = []
    · subst h
      simp [matcherMatch, groupOcrElements]
    · simp only [matcherMatch]
      rw [if_neg h]
  refine ⟨heq, ?_, ?_⟩
  · rw [heq, List.length_map, List.length_take]
    exact min_le_left _ _
  · rw [heq]
    exact ((List.take_sublist _ _).trans (List.filter_sublist _)).map
      toFallbackMatch

/-- **C9 counterexample**: on `exC9` the two elements merge into a single
group (the second lies within 15px of the first line), but the group's
`x1` stays the *starting* element's `x1 = 50`, not the members' minimum
`x1 = 10` — the union is only taken for `x2`/`y2`. -/
theorem claim_C9_counterexample :
    groupMembers exC9 = [(e1C9, [e2C9])] ∧
    groupOcrElements exC9 = [⟨"A B".data, 50, 100, 80, 120⟩] ∧
    (boxOfRun e1C9 [e2C9]).x1 ≠ min e1C9.x1 e2C9.x1 := by
  decide

/-- **C9 (amended)**: each group of `_group_ocr_elements` is a maximal run
of consecutive `(y1, x1)`-sorted elements whose `y1` lies within 15px of
the run's *starting* element; its box has the starting element's `x1` and
`y1` (the `y1` is the members' minimum since the run ascends in `y1`),
while `x2` and `y2` are the members' maxima — the union is taken for
`x2`/`y2` only, and `x1` need not be the minimum member `x1`. -/
theorem claim_C9_group_boxes (l : List OCRElem) :
    groupOcrElements l =
      (groupMembers l).map (fun p => boxOfRun p.1 p.2) ∧
    ∀ p ∈ groupMembers l,
      (boxOfRun p.1 p.2).x1 = p.1.x1 ∧
      (boxOfRun p.1 p.2).y1 = p.1.y1 ∧
      (∀ e ∈ p.1 :: p.2,
        (e.y1 - p.1.y1).natAbs < 15 ∧ p.1.y1 ≤ e.y1 ∧
        e.x2 ≤ (boxOfRun p.1 p.2).x2 ∧ e.y2 ≤ (boxOfRun p.1 p.2).y2) ∧
      (boxOfRun p.1 p.2).x2 ∈ (p.1 :: p.2).map (fun e => e.x2) ∧
      (boxOfRun p.1 p.2).y2 ∈ (p.1 :: p.2).map (fun e => e.y2) := by
  refine ⟨groupOcrElements_eq_members l, ?_⟩
  intro p hp
  have hlne : l ≠ [] := by
    intro h
    rw [h] at hp
    cases hp
  have hp2 : p ∈ groupRuns (pySorted leKey (groupFiltered l)) none := by
    unfold groupMembers at hp
    rw [if_neg hlne] at hp
    exact hp
  have hspec := groupRuns_spec (fun _ => True)
    (pySorted leKey (groupFiltered l)) none
    (pySorted_y1_pairwise _)
    (fun _ _ => trivial)
    (by intro h tl heq; cases heq)
    p hp2
  have hub := foldl_mergeElem_ub p.2 (initGroup p.1)
  have hat := foldl_mergeElem_attained p.2 (initGroup p.1)
  refine ⟨boxOfRun_x1 _ _, boxOfRun_y1 _ _, ?_, ?_, ?_⟩
  · intro e he
    rcases List.mem_cons.mp he with rfl | hmem
    · exact ⟨by omega, le_refl _, hub.1.1, hub.1.2⟩
    · rcases hspec.2 e hmem with ⟨_, h15, hle⟩
      exact ⟨h15, hle, (hub.2 e hmem).1, (hub.2 e hmem).2⟩
  · rcases hat.1 with hx | hx
    · simp only [List.map_cons, List.mem_cons]
      exact Or.inl hx
    · simp only [List.map_cons, List.mem_cons]
      exact Or.inr hx
  · rcases hat.2 with hy | hy
    · simp only [List.map_cons, List.mem_cons]
      exact Or.inl hy
    · simp only [List.map_cons, List.mem_cons]
      exact Or.inr hy

/-- Witness for C9 at the concrete two-element list. -/
theorem claim_C9_group_boxes_witness :
    ((e1C9, [e2C9]) ∈ groupMembers exC9) ∧
    ((boxOfRun e1C9 [e2C9]).x1 = e1C9.x1 ∧
     (boxOfRun e1C9 [e2C9]).y1 = e1C9.y1 ∧
     (∀ e ∈ e1C9 :: [e2C9],
       (e.y1 - e1C9.y1).natAbs < 15 ∧ e1C9.y1 ≤ e.y1 ∧
       e.x2 ≤ (boxOfRun e1C9 [e2C9]).x2 ∧
       e.y2 ≤ (boxOfRun e1C9 [e2C9]).y2) ∧
     (boxOfRun e1C9 [e2C9]).x2 ∈ (e1C9 :: [e2C9]).map (fun e => e.x2) ∧
     (boxOfRun e1C9 [e2C9]).y2 ∈ (e1C9 :: [e2C9]).map (fun e => e.y2)) :=
  ⟨by decide, (claim_C9_group_boxes exC9).2 (e1C9, [e2C9]) (by decide)⟩

/-- The matcher never returns more than `max_results` items, on any
path. -/
theorem matcherMatch_length_le (maxResults : Nat) (ocr : List OCRElem)
    (outcome : SelectOutcome) :
    (matcherMatch maxResults ocr outcome).length ≤ maxResults := by
  unfold matcherMatch
  by_cases h : ocr = []
  · rw [if_pos h]
    exact Nat.zero_le _
  · rw [if_neg h]
    cases outcome with
    | ok ids =>
      refine le_trans (List.length_filterMap_le _ _) ?_
      rw [List.length_take]
      exact min_le_left _ _
    | fail =>
      rw [List.length_map, List.length_take]
      exact min_le_left _ _

/-- Every match's box is the box of some group. -/
theorem matcherMatch_box_from_group (maxResults : Nat) (ocr : List OCRElem)
    (outcome : SelectOutcome) :
    ∀ m ∈ matcherMatch maxResults ocr outcome,
      ∃ g ∈ groupOcrElements ocr,
        m.x1 = g.x1 ∧ m.y1 = g.y1 ∧ m.x2 = g.x2 ∧ m.y2 = g.y2 := by
  intro m hm
  unfold matcherMatch at hm
  by_cases h : ocr = []
  · rw [if_pos h] at hm
    cases hm
  · rw [if_neg h] at hm
    cases outcome with
    | ok ids =>
      rcases List.mem_filterMap.mp hm with ⟨idx, _, hf⟩
      by_cases hrange : 1 ≤ idx ∧ idx ≤ ((groupOcrElements ocr).length : Int)
      · rw [if_pos hrange] at hf
        rcases Option.map_eq_some'.mp hf with ⟨g, hget, rfl⟩
        exact ⟨g, List.get?_mem hget, rfl, rfl, rfl, rfl⟩
      · rw [if_neg hrange] at hf
        cases hf
    | fail =>
      rcases List.mem_map.mp hm with ⟨g, hg, rfl⟩
      have hgmem : g ∈ groupOcrElements ocr :=
        ((List.take_sublist _ _).trans (List.filter_sublist _)).mem hg
      exact ⟨g, hgmem, rfl, rfl, rfl, rfl⟩

/-- **C8 counterexample**: with a single OCR element that the chrome
filter rejects, the raw-element fallback admits its degenerate box
`(0,0,0,0)`; a selection response choosing it produces an evidence item
whose bounding box violates `x2 > x1 ∧ y2 > y1`. -/
theorem claim_C8_counterexample :
    (selectEvidence "v".data exC8bad (SelectOutcome.ok [1])).evidence.map
      (fun e => (e.bounding_box.x1, e.bounding_box.y1,
                 e.bounding_box.x2, e.bounding_box.y2)) =
      [(0, 0, 0, 0)] ∧
    ¬ ∀ e ∈ (selectEvidence "v".data exC8bad (SelectOutcome.ok [1])).evidence,
        e.bounding_box.x1 < e.bounding_box.x2 ∧
        e.bounding_box.y1 < e.bounding_box.y2 := by
  decide

/-- **C8 (amended)**: every result of `select_evidence` — on every path,
including the all-filtered raw-element fallback — has between 0 and 3
evidence items whose `id`s are dense `1..N` in selection order; and
provided at least one OCR element survives the chrome filter (so the
raw-element fallback of the grouper does not engage), every item's
bounding box satisfies `x2 > x1` and `y2 > y1`. -/
theorem claim_C8_evidence_invariants (osv : PyStr) (ocr : List OCRElem)
    (outcome : SelectOutcome) :
    (selectEvidence osv ocr outcome).evidence.length ≤ 3 ∧
    (selectEvidence osv ocr outcome).evidence.map (fun e => e.id) =
      List.range' 1 (selectEvidence osv ocr outcome).evidence.length ∧
    (ocr.filter chromeKeep ≠ [] →
      ∀ e ∈ (selectEvidence osv ocr outcome).evidence,
        e.bounding_box.x1 < e.bounding_box.x2 ∧
        e.bounding_box.y1 < e.bounding_box.y2) := by
  simp only [selectEvidence]
  refine ⟨?_, ?_, ?_⟩
  · rw [List.length_map, List.enumFrom_length]
    exact matcherMatch_length_le MAX_EVIDENCE ocr outcome
  · rw [List.map_map, List.length_map, List.enumFrom_length]
    have hcomp :
        ((fun e : EvidenceItem => e.id) ∘ fun im : Nat × MatchItem =>
          (⟨im.1, "Matches: ".data ++ im.2.matched_source.take 50,
            if (if 35 < osv.length then osv.take 35 ++ "...".data
                else osv) = [] then "Issue here".data
            else (if 35 < osv.length then osv.take 35 ++ "...".data
                  else osv),
            ⟨im.2.x1, im.2.y1, im.2.x2, im.2.y2⟩⟩ : EvidenceItem)) =
          Prod.fst := rfl
    rw [hcomp, List.enumFrom_map_fst]
  · intro h e he
    rcases List.mem_map.mp he with ⟨im, him, rfl⟩
    have him2 : im.2 ∈ matcherMatch MAX_EVIDENCE ocr outcome := by
      have : im.2 ∈ (List.enumFrom 1
          (matcherMatch MAX_EVIDENCE ocr outcome)).map Prod.snd :=
        List.mem_map_of_mem Prod.snd him
      rwa [List.enumFrom_map_snd] at this
    rcases matcherMatch_box_from_group MAX_EVIDENCE ocr outcome im.2 him2
      with ⟨g, hg, h1, h2, h3, h4⟩
    have hv := groupOcrElements_valid ocr h g hg
    constructor
    · show im.2.x1 < im.2.x2
      omega
    · show im.2.y1 < im.2.y2
      omega

/-- Witness for C8 at a concrete surviving element with the fallback
selection path. -/
theorem claim_C8_evidence_invariants_witness :
    (exC8good.filter chromeKeep ≠ []) ∧
    ((selectEvidence "v".data exC8good SelectOutcome.fail).evidence.length
        ≤ 3 ∧
     (selectEvidence "v".data exC8good SelectOutcome.fail).evidence.map
        (fun e => e.id) =
       List.range' 1
         (selectEvidence "v".data exC8good
           SelectOutcome.fail).evidence.length ∧
     ∀ e ∈ (selectEvidence "v".data exC8good SelectOutcome.fail).evidence,
       e.bounding_box.x1 < e.bounding_box.x2 ∧
       e.bounding_box.y1 < e.bounding_box.y2) :=
  ⟨by decide,
   (claim_C8_evidence_invariants "v".data exC8good SelectOutcome.fail).1,
   (claim_C8_evidence_invariants "v".data exC8good SelectOutcome.fail).2.1,
   (claim_C8_evidence_invariants "v".data exC8good
     SelectOutcome.fail).2.2 (by decide)⟩

/-- **C7**: the crop rectangle is a deterministic function of
`(W, H, content_type)` (two isolations agree), the full height is always
retained (`y1 = 0`, `y2 = H`), the rectangle lies inside the source with
positive width and height, and the margin ratios differ between
`"profile"` (2%/2% capped at 30px) and `"post"` (3%/5% capped at
50px/100px), as exhibited at width 1000. -/
theorem claim_C7_crop_policy (W H : Nat) (ct : PyStr) (hW : 1 ≤ W)
    (hH : 1 ≤ H) :
    isolateCropRect W H ct = isolateCropRect W H ct ∧
    (isolateCropRect W H ct).2.1 = 0 ∧
    (isolateCropRect W H ct).2.2.2 = H ∧
    (isolateCropRect W H ct).1 < (isolateCropRect W H ct).2.2.1 ∧
    (isolateCropRect W H ct).2.2.1 ≤ W ∧
    0 < (isolateCropRect W H ct).2.2.2 ∧
    isolateCropRect 1000 1000 "profile".data ≠
      isolateCropRect 1000 1000 "post".data := by
  refine ⟨rfl, ?_, ?_, ?_, ?_, ?_, by decide⟩ <;>
    · simp only [isolateCropRect]
      by_cases h : ct = "post".data
      · rw [if_pos h]
        all_goals dsimp only
        all_goals omega
      · rw [if_neg h]
        all_goals dsimp only
        all_goals omega

/-- Witness for C7 at a concrete image size. -/
theorem claim_C7_crop_policy_witness :
    ((1 : Nat) ≤ 640 ∧ (1 : Nat) ≤ 480) ∧
    (isolateCropRect 640 480 "post".data =
        isolateCropRect 640 480 "post".data ∧
     (isolateCropRect 640 480 "post".data).2.1 = 0 ∧
     (isolateCropRect 640 480 "post".data).2.2.2 = 480 ∧
     (isolateCropRect 640 480 "post".data).1 <
       (isolateCropRect 640 480 "post".data).2.2.1 ∧
     (isolateCropRect 640 480 "post".data).2.2.1 ≤ 640 ∧
     0 < (isolateCropRect 640 480 "post".data).2.2.2 ∧
     isolateCropRect 1000 1000 "profile".data ≠
       isolateCropRect 1000 1000 "post".data) :=
  ⟨⟨by decide, by decide⟩,
   claim_C7_crop_policy 640 480 "post".data (by decide) (by decide)⟩

/-- The well-formedness guard in `Prop` form. -/
theorem wellFormedItem_iff (it : RenderItem) :
    wellFormedItem it = true ↔
      (it.bounding_box.x1 < it.bounding_box.x2 ∧
       it.bounding_box.y1 < it.bounding_box.y2) := by
  simp only [wellFormedItem, Bool.not_eq_true', Bool.or_eq_false_iff,
    decide_eq_false_iff_not]
  omega

theorem renderOps_cons (W : Int) (it : RenderItem)
    (rest : List RenderItem) :
    renderOps W (it :: rest) =
      (if it.bounding_box.x2 ≤ it.bounding_box.x1 ∨
          it.bounding_box.y2 ≤ it.bounding_box.y1 then []
       else itemOps W it) ++ renderOps W rest := by
  simp only [renderOps, List.flatMap_cons]

/-- `renderOps` is the concatenation of the well-formed items' ops. -/
theorem renderOps_eq_filter (W : Int) :
    ∀ evidence : List RenderItem,
      renderOps W evidence =
        (evidence.filter wellFormedItem).flatMap (itemOps W) := by
  intro evidence
  induction evidence with
  | nil => rfl
  | cons it rest ih =>
    by_cases h : it.bounding_box.x2 ≤ it.bounding_box.x1 ∨
        it.bounding_box.y2 ≤ it.bounding_box.y1
    · have hw : ¬ (wellFormedItem it = true) := by
        rw [wellFormedItem_iff]
        omega
      rw [renderOps_cons, if_pos h, List.filter_cons_of_neg hw,
        List.nil_append, ih]
    · have hw : wellFormedItem it = true := by
        rw [wellFormedItem_iff]
        omega
      rw [renderOps_cons, if_neg h, List.filter_cons_of_pos hw,
        List.flatMap_cons, ih]

/-- **C6**: an evidence item with a malformed bounding box
(`x2 <= x1 or y2 <= y1`) is silently skipped — it contributes no draw
operations — while every well-formed item's annotations are still drawn,
and the loop body is total, so rendering never raises. -/
theorem claim_C6_render_skips_malformed (W : Int)
    (pre post : List RenderItem) (bad : RenderItem)
    (hbad : bad.bounding_box.x2 ≤ bad.bounding_box.x1 ∨
      bad.bounding_box.y2 ≤ bad.bounding_box.y1) :
    renderOps W (pre ++ bad :: post) = renderOps W pre ++ renderOps W post ∧
    renderOps W (pre ++ bad :: post) =
      ((pre ++ bad :: post).filter wellFormedItem).flatMap (itemOps W) := by
  constructor
  · simp only [renderOps, List.flatMap_append, List.flatMap_cons,
      if_pos hbad, List.nil_append]
  · exact renderOps_eq_filter W _

/-- Witness for C6: one malformed item between two well-formed ones. -/
theorem claim_C6_render_skips_malformed_witness :
    (itemC6bad.bounding_box.x2 ≤ itemC6bad.bounding_box.x1 ∨
      itemC6bad.bounding_box.y2 ≤ itemC6bad.bounding_box.y1) ∧
    (renderOps 1000 ([itemC6good] ++ itemC6bad :: [itemC5]) =
       renderOps 1000 [itemC6good] ++ renderOps 1000 [itemC5] ∧
     renderOps 1000 ([itemC6good] ++ itemC6bad :: [itemC5]) =
       (([itemC6good] ++ itemC6bad :: [itemC5]).filter
         wellFormedItem).flatMap (itemOps 1000)) :=
  ⟨Or.inl (by decide),
   claim_C6_render_skips_malformed 1000 [itemC6good] [itemC5] itemC6bad
     (Or.inl (by decide))⟩

/-- **C5 (amended)**: the annotations are composed as an alpha overlay and
flattened to opaque, so every pixel at which the overlay is transparent —
for an opaque input pixel — is identical (in RGB) to the input.  The
overlay, however, is not confined to the evidence boxes plus a small
margin: it includes margin notes and leader arrows that can be drawn more
than 100px outside every box (see the counterexample). -/
theorem claim_C5_overlay_preservation (W : Int)
    (evidence : List RenderItem) (img : Int × Int → Pixel) (p : Int × Int)
    (hov : overlayAt (renderOps W evidence) p = none)
    (hfull : (img p).a = 255) :
    renderPixel img (renderOps W evidence) p =
      ((img p).r, (img p).g, (img p).b) := by
  unfold renderPixel
  rw [hov]
  simp only [alphaOverPixel, flattenPixel, hfull, Prod.mk.injEq]
  refine ⟨by omega, by omega, by omega⟩

/-- Witness for C5 at an empty evidence list and the grey image. -/
theorem claim_C5_overlay_preservation_witness :
    overlayAt (renderOps 1000 []) (0, 0) = none ∧
    (imgGray (0, 0)).a = 255 ∧
    renderPixel imgGray (renderOps 1000 []) (0, 0) =
      ((imgGray (0, 0)).r, (imgGray (0, 0)).g, (imgGray (0, 0)).b) :=
  ⟨by decide, by decide,
   claim_C5_overlay_preservation 1000 [] imgGray (0, 0) (by decide)
     (by decide)⟩

/-- **C5 counterexample**: at the all-zero jitter sample (a possible run),
the scribble arrow's first vertex `(note_x - 10, note_y + 8) = (840, 498)`
is drawn red, yet it lies outside the single evidence box dilated by a
100px margin — the rendered output differs from the input at a pixel far
from every evidence box, refuting "only pixels near the evidence boxes
are touched". -/
theorem claim_C5_counterexample :
    dilatedCover 100 itemC5.bounding_box (840, 498) = false ∧
    renderPixel imgGray (renderOps 1000 [itemC5]) (840, 498) = RED ∧
    ((imgGray (840, 498)).r, (imgGray (840, 498)).g,
      (imgGray (840, 498)).b) = (100, 100, 100) ∧
    renderPixel imgGray (renderOps 1000 [itemC5]) (840, 498) ≠
      ((imgGray (840, 498)).r, (imgGray (840, 498)).g,
        (imgGray (840, 498)).b) := by
  decide
